import Mathlib

/-! Shallow embedding of the Test Tube payments backend (`src/backend/main.py`)
and proofs about it.

Modelling conventions:
* Python `float` amounts are idealised as exact rationals (`ℚ`); the claims under
  study are about aggregation and bookkeeping logic, not binary rounding.
* `datetime` values are idealised as an integer timeline (`Int`, seconds); a day
  is the constant `86400`.  `datetime.now()` and the midnight truncation
  `now.replace(hour=0, ...)` are supplied by an environment record `Env`.
* The Solana RPC calls (balance check, airdrop, blockhash, `send_transaction`)
  are external effects that never touch the transaction ledger; they are
  abstracted into `Env` (payer public key, address-validity predicate, produced
  transaction signature).  `Pubkey.from_string` is abstracted as the boolean
  predicate `Env.isValidPubkey`.
* Python `dict`s that the code builds by insertion are modelled as
  insertion-ordered association lists (`updateAssoc`), matching `dict` iteration
  order; `list.sort`/`sorted` (stable Timsort) is modelled as Mathlib's stable
  `List.insertionSort`, which is extensionally equal to any stable sort for a
  total preorder comparator.
-/

/-- The closed category enumeration of `TransactionCategory` in the source. -/
inductive TransactionCategory where
  | food
  | transport
  | data
  | books
  | entertainment
  | utilities
  | supplies
  | other
deriving DecidableEq

/-- The string value of a category member (the `str`-enum value in the source). -/
def catName : TransactionCategory → String
  | .food => "food"
  | .transport => "transport"
  | .data => "data"
  | .books => "books"
  | .entertainment => "entertainment"
  | .utilities => "utilities"
  | .supplies => "supplies"
  | .other => "other"

/-- One entry of the hardcoded `MERCHANTS` table. -/
structure MerchantInfo where
  name : String
  category : TransactionCategory
  description : String
deriving DecidableEq

/-- The hardcoded merchant directory `MERCHANTS` of the source. -/
def MERCHANTS : List (String × MerchantInfo) :=
  [("11111111111111111111111111111111",
    { name := "Campus Cafeteria", category := .food,
      description := "Main campus dining hall" }),
   ("22222222222222222222222222222222",
    { name := "Cab Car Park", category := .transport,
      description := "Campus transport service" }),
   ("33333333333333333333333333333333",
    { name := "Data Reseller", category := .data,
      description := "Mobile data and airtime" }),
   ("44444444444444444444444444444444",
    { name := "Campus Bookstore", category := .books,
      description := "Academic materials and stationery" })]

/-- First-match lookup in an association list (Python `dict.get` on the
insertion-ordered dicts modelled below; keys are unique in all uses). -/
def lookupA {κ β : Type} [DecidableEq κ] : List (κ × β) → κ → Option β
  | [], _ => none
  | (k, v) :: rest, k2 => if k = k2 then some v else lookupA rest k2

/-- In-place update of the entry at key `k` (Python
`d[k] = f(d.get(k, init))` on an insertion-ordered dict): if the key is
present its value is updated in place, otherwise `(k, f init)` is appended. -/
def updateAssoc {κ β : Type} [DecidableEq κ] : List (κ × β) → κ → (β → β) → β → List (κ × β)
  | [], k, f, init => [(k, f init)]
  | (k2, v) :: rest, k, f, init =>
    if k2 = k then (k2, f v) :: rest else (k2, v) :: updateAssoc rest k f init

/-- Position of the first occurrence of `x` in `l` (used to speak about
insertion order of aggregation maps). -/
def posIn {α : Type} [DecidableEq α] : List α → α → Nat
  | [], _ => 0
  | y :: ys, x => if y = x then 0 else posIn ys x + 1

/-- Python `max(xs, key := f)`: the first element with maximal key (the running
maximum is replaced only on a strictly greater key); `none` on `[]`. -/
def pyMaxBy {α : Type} (f : α → ℚ) : List α → Option α
  | [] => none
  | x :: xs => some (xs.foldl (fun best y => if f best < f y then y else best) x)

/-- Python list slicing `xs[:limit]` for an `int` limit: a nonnegative limit
takes a prefix, a negative limit drops `|limit|` elements from the end. -/
def pySliceTo {α : Type} (xs : List α) (limit : Int) : List α :=
  if 0 ≤ limit then xs.take limit.toNat else xs.take (xs.length - limit.natAbs)

/-- The `TransactionRecord` model of the source (a stored ledger row).
`metadata` dictionaries are modelled as string association lists. -/
structure TransactionRecord where
  id : String
  sender : String
  recipient : String
  merchant_name : Option String
  amount_sol : ℚ
  amount_ngn : ℚ
  category : TransactionCategory
  description : String
  timestamp : Int
  tx_signature : String
  metadata : List (String × String)
deriving DecidableEq

/-- A Pydantic optional field as received on the wire: absent from the JSON
body, explicitly `null`, or a supplied value. -/
inductive RawOpt (α : Type) where
  | omitted
  | null
  | given (a : α)
deriving DecidableEq

/-- The `PaymentRequest` body of `POST /pay`.  `amount` is validated by
Pydantic (`Field(gt=0)`) before the handler runs. -/
structure PaymentRequest where
  recipient : String
  amount : ℚ
  category : RawOpt TransactionCategory
  description : RawOpt String
  metadata : RawOpt (List (String × String))
deriving DecidableEq

/-- Pydantic resolution of `category: Optional[TransactionCategory] = TransactionCategory.OTHER`:
an omitted field gets the declared default `OTHER`, an explicit `null` gives
`None`, a supplied member is kept. -/
def pydCategory : RawOpt TransactionCategory → Option TransactionCategory
  | .omitted => some TransactionCategory.other
  | .null => none
  | .given c => some c

/-- Pydantic resolution of `description: Optional[str] = ""`. -/
def pydDescription : RawOpt String → Option String
  | .omitted => some ""
  | .null => none
  | .given s => some s

/-- Pydantic resolution of `metadata: Optional[Dict[str, Any]] = {}`. -/
def pydMetadata : RawOpt (List (String × String)) → Option (List (String × String))
  | .omitted => some []
  | .null => none
  | .given m => some m

/-- Python truthiness of `x or y` for an optional category: every
`TransactionCategory` value is a non-empty string, hence truthy, so only
`None` falls through to `y`. -/
def pyOrCat (x : Option TransactionCategory) (y : TransactionCategory) : TransactionCategory :=
  match x with
  | some c => c
  | none => y

/-- Python truthiness of `x or y` for an optional string: both `None` and the
empty string are falsy. -/
def pyOrStr (x : Option String) (y : String) : String :=
  match x with
  | some s => if s = "" then y else s
  | none => y

/-- Python truthiness of `payment.metadata or {}`: `None` and the empty dict
both give the empty dict. -/
def pyOrMeta (x : Option (List (String × String))) : List (String × String) :=
  match x with
  | some m => m
  | none => []

/-- Environment supplied by the outside world to one request: current time,
today's midnight, the payer key, the settlement backend's address syntax check
(`Pubkey.from_string` succeeding), and the signature returned by the backend. -/
structure Env where
  payerPubkey : String
  isValidPubkey : String → Bool
  now : Int
  todayStart : Int
  txSig : String

/-- `sol_to_naira` of the source: the hardcoded fixed-rate conversion
`sol_amount * SOL_TO_USD * USD_TO_NGN` with `SOL_TO_USD = 100`,
`USD_TO_NGN = 1500`. -/
def sol_to_naira (sol_amount : ℚ) : ℚ := sol_amount * 100 * 1500

/-- The record id `f"tx_{len(transactions_db) + 1}"` for a given index. -/
def idString (n : Nat) : String := "tx_" ++ Nat.repr n

/-- Merchant lookup `MERCHANTS.get(payment.recipient, {})`. -/
def lookupMerchant (recipient : String) : Option MerchantInfo :=
  lookupA MERCHANTS recipient

/-- Result of `POST /pay`: Pydantic 422 on a non-positive amount, HTTP 400 on
an address `Pubkey.from_string` rejects, or the created record. -/
inductive PayResult where
  | validationError
  | invalidRecipient
  | ok (r : TransactionRecord)
deriving DecidableEq

/-- The `process_payment` handler.  Pydantic validates `amount > 0` before the
handler body; the handler then parses the recipient address and, on the success
path (balance/airdrop/blockhash/`send_transaction` are external effects that do
not touch the ledger), builds a `TransactionRecord` and appends it to
`transactions_db`.  Returns the handler outcome together with the ledger after
the call. -/
def process_payment (env : Env) (db : List TransactionRecord) (payment : PaymentRequest) :
    PayResult × List TransactionRecord :=
  if 0 < payment.amount then
    if env.isValidPubkey payment.recipient then
      let merchant_info := lookupMerchant payment.recipient
      let tx_record : TransactionRecord :=
        { id := idString (db.length + 1)
          sender := env.payerPubkey
          recipient := payment.recipient
          merchant_name := merchant_info.map (fun m => m.name)
          amount_sol := payment.amount
          amount_ngn := sol_to_naira payment.amount
          category := pyOrCat (pydCategory payment.category)
            ((merchant_info.map (fun m => m.category)).getD TransactionCategory.other)
          description := pyOrStr (pydDescription payment.description)
            ((merchant_info.map (fun m => m.description)).getD "")
          timestamp := env.now
          tx_signature := env.txSig
          metadata := pyOrMeta (pydMetadata payment.metadata) }
      (PayResult.ok tx_record, db ++ [tx_record])
    else (PayResult.invalidRecipient, db)
  else (PayResult.validationError, db)

/-- Two-digit zero-padded rendering of `n < 100`. -/
def pad2 (n : Nat) : String := if n < 10 then "0" ++ Nat.repr n else Nat.repr n

/-- Thousands grouping: the input is a digit string reversed (least significant
first); a comma is inserted after every three digits. -/
def chunk3 (ds : List Char) : List Char :=
  if _h : ds.length ≤ 3 then ds else ds.take 3 ++ ',' :: chunk3 (ds.drop 3)
termination_by ds.length
decreasing_by simp only [List.length_drop]; omega

/-- Decimal rendering of a natural number with thousands separators. -/
def natCommas (n : Nat) : String := String.mk ((chunk3 (Nat.repr n).data.reverse).reverse)

/-- The number of cents in a nonnegative rational, rounding half up:
`⌊x * 100 + 1/2⌋` computed as a floor division on the numerator and
denominator (Python's binary-float `format` rounding is idealised). -/
def centsOf (x : ℚ) : Nat := (Int.fdiv (x.num * 200 + x.den) (2 * x.den)).toNat

/-- Python `f"{x:.2f}"`, idealised to exact decimal rounding on `ℚ`. -/
def fmt2 (x : ℚ) : String :=
  if x < 0 then "-" ++ Nat.repr (centsOf (-x) / 100) ++ "." ++ pad2 (centsOf (-x) % 100)
  else Nat.repr (centsOf x / 100) ++ "." ++ pad2 (centsOf x % 100)

/-- Python `f"{x:,.2f}"` (two decimals plus thousands separators). -/
def fmt2commas (x : ℚ) : String :=
  if x < 0 then "-" ++ natCommas (centsOf (-x) / 100) ++ "." ++ pad2 (centsOf (-x) % 100)
  else natCommas (centsOf x / 100) ++ "." ++ pad2 (centsOf x % 100)

/-- `format_naira` of the source. -/
def format_naira (amount : ℚ) : String := "₦" ++ fmt2commas amount

/-- The category filter of `get_transactions` (`if category:` is true for every
category member, as all enum values are non-empty strings). -/
def filterByCategory (txs : List TransactionRecord) :
    Option TransactionCategory → List TransactionRecord
  | none => txs
  | some c => txs.filter (fun tx => decide (tx.category = c))

/-- The `start_date` filter of `get_transactions` (`timestamp >= start`). -/
def filterByStart (txs : List TransactionRecord) : Option Int → List TransactionRecord
  | none => txs
  | some s => txs.filter (fun tx => decide (s ≤ tx.timestamp))

/-- The `end_date` filter of `get_transactions` (`timestamp <= end`). -/
def filterByEnd (txs : List TransactionRecord) : Option Int → List TransactionRecord
  | none => txs
  | some e => txs.filter (fun tx => decide (tx.timestamp ≤ e))

/-- The `filtered_txs` value of `get_transactions` before sorting and slicing:
the three filters applied in source order. -/
def filtered_txs (db : List TransactionRecord) (category : Option TransactionCategory)
    (start_date end_date : Option Int) : List TransactionRecord :=
  filterByEnd (filterByStart (filterByCategory db category) start_date) end_date

/-- `filtered_txs.sort(key=lambda x: x["timestamp"], reverse=True)`: a stable
sort, descending on the timestamp, equal timestamps kept in list order. -/
def sortByTimestampDesc (txs : List TransactionRecord) : List TransactionRecord :=
  List.insertionSort (fun a b => b.timestamp ≤ a.timestamp) txs

/-- The response body of `GET /transactions`. -/
structure TransactionsResponse where
  transactions : List TransactionRecord
  total : Nat
  total_sol : ℚ
  total_ngn : ℚ
deriving DecidableEq

/-- The `get_transactions` handler body: filter, sort newest-first, and return
the first `limit` rows together with totals over the whole filtered set. -/
def get_transactions (db : List TransactionRecord) (category : Option TransactionCategory)
    (start_date end_date : Option Int) (limit : Int) : TransactionsResponse :=
  let f := sortByTimestampDesc (filtered_txs db category start_date end_date)
  { transactions := pySliceTo f limit
    total := f.length
    total_sol := (f.map (fun tx => tx.amount_sol)).sum
    total_ngn := (f.map (fun tx => tx.amount_ngn)).sum }

/-- The `GET /transactions` endpoint including the FastAPI query validation
`limit: int = Query(50, le=100)`: a limit above 100 is rejected (HTTP 422)
before the handler runs. -/
def get_transactions_endpoint (db : List TransactionRecord)
    (category : Option TransactionCategory) (start_date end_date : Option Int)
    (limit : Int) : Option TransactionsResponse :=
  if limit ≤ 100 then some (get_transactions db category start_date end_date limit) else none

/-- Per-category accumulator entry (`{"count": .., "total_sol": .., "total_ngn": ..}`
in `get_ai_insights`, `{"count": .., "sol": .., "ngn": ..}` in
`get_analytics_summary`; both loops have the same shape). -/
structure CatBreak where
  count : Nat
  sol : ℚ
  ngn : ℚ
deriving DecidableEq

/-- The zero entry a category starts from. -/
def czero : CatBreak := { count := 0, sol := 0, ngn := 0 }

/-- One loop step: `count += 1; sol += tx["amount_sol"]; ngn += tx["amount_ngn"]`. -/
def catBump (v : CatBreak) (tx : TransactionRecord) : CatBreak :=
  { count := v.count + 1, sol := v.sol + tx.amount_sol, ngn := v.ngn + tx.amount_ngn }

/-- The per-category aggregation loop shared by `get_ai_insights`
(`category_spending`) and `get_analytics_summary` (`category_totals`): a dict
built by insertion over the transaction list. -/
def accumulateByCategory :
    List TransactionRecord → List (TransactionCategory × CatBreak) →
      List (TransactionCategory × CatBreak)
  | [], acc => acc
  | tx :: rest, acc =>
    accumulateByCategory rest (updateAssoc acc tx.category (fun v => catBump v tx) czero)

/-- The aggregation started from the empty dict. -/
def categorySpending (txs : List TransactionRecord) : List (TransactionCategory × CatBreak) :=
  accumulateByCategory txs []

/-- The request body of `POST /ai/insights`. -/
structure AIInsightRequest where
  period : String
  focus : Option String
deriving DecidableEq

/-- The period cutoff computed at the top of `get_ai_insights`: `today` is
today's midnight, `week`/`month` are 7/30 days before now, anything else is one
day before now. -/
def periodStart (env : Env) (period : String) : Int :=
  if period = "today" then env.todayStart
  else if period = "week" then env.now - 7 * 86400
  else if period = "month" then env.now - 30 * 86400
  else env.now - 86400

/-- The `period_txs` selection of `get_ai_insights`. -/
def periodTxs (env : Env) (db : List TransactionRecord) (period : String) :
    List TransactionRecord :=
  db.filter (fun tx => decide (periodStart env period ≤ tx.timestamp))

/-- One entry of `json.dumps(category_spending, indent=2)` (the numeric
rendering of the JSON dump is idealised to the two-decimal form). -/
def dumpCatEntry (p : TransactionCategory × CatBreak) : String :=
  "  \"" ++ catName p.1 ++ "\": \x7b\"count\": " ++ Nat.repr p.2.count ++
    ", \"total_sol\": " ++ fmt2 p.2.sol ++ ", \"total_ngn\": " ++ fmt2 p.2.ngn ++ "\x7d"

/-- `json.dumps(category_spending, indent=2)`. -/
def dumpCategorySpending (cs : List (TransactionCategory × CatBreak)) : String :=
  "\x7b\n" ++ String.intercalate ",\n" (cs.map dumpCatEntry) ++ "\n\x7d"

/-- The prompt f-string assembled in `get_ai_insights`. -/
def buildPrompt (period : String) (period_txs : List TransactionRecord)
    (category_spending : List (TransactionCategory × CatBreak)) : String :=
  "You are a friendly financial advisor for Nigerian university students.\n" ++
  "Analyze this spending data and provide insights in simple, relatable language:\n\n" ++
  "Period: " ++ period ++ "\n" ++
  "Total transactions: " ++ Nat.repr period_txs.length ++ "\n" ++
  "Total spent: " ++ fmt2 ((period_txs.map (fun tx => tx.amount_sol)).sum) ++
  " SOL (₦" ++ fmt2commas ((period_txs.map (fun tx => tx.amount_ngn)).sum) ++ ")\n\n" ++
  "Category breakdown:\n" ++ dumpCategorySpending category_spending ++ "\n\n" ++
  "Provide:\n" ++
  "1. A brief, friendly summary of spending patterns\n" ++
  "2. Any concerns about spending habits\n" ++
  "3. Practical tips specific to campus life\n\n" ++
  "Keep it conversational, use Nigerian context, and be encouraging but honest. Preferably One or two lines."

/-- `generate_fallback_insights` of the source: the deterministic rule-based
summary used when the AI call raises. -/
def generate_fallback_insights (category_spending : List (TransactionCategory × CatBreak))
    (transactions : List TransactionRecord) : String :=
  let total_sol := (transactions.map (fun tx => tx.amount_sol)).sum
  let total_ngn := (transactions.map (fun tx => tx.amount_ngn)).sum
  let insights := "You\x27ve made " ++ Nat.repr transactions.length ++
    " transactions totaling " ++ fmt2 total_sol ++ " SOL (" ++ format_naira total_ngn ++ "). "
  match pyMaxBy (fun p => p.2.sol) category_spending with
  | none => insights
  | some top =>
    let top_category := top.1
    let top_amount := ((lookupA category_spending top_category).getD czero).ngn
    let insights := insights ++ "Most of your spending (" ++ format_naira top_amount ++
      ") was on " ++ catName top_category ++ ". "
    if top_category = TransactionCategory.food ∧ top_amount > 50000 then
      insights ++ "Your food budget seems high - consider cooking more often. "
    else if top_category = TransactionCategory.data ∧ top_amount > 20000 then
      insights ++ "Data expenses are significant - look for student bundles or campus WiFi. "
    else if top_category = TransactionCategory.transport ∧ top_amount > 30000 then
      insights ++ "Transport costs are adding up - try sharing rides with classmates. "
    else insights

/-- The per-category branch of `generate_suggestions` (an `if/elif` chain, so
at most one suggestion per dict entry). -/
def suggestionFor (p : TransactionCategory × CatBreak) : Option String :=
  if p.1 = TransactionCategory.food ∧ p.2.ngn > 50000 then
    some "Join a cooking group or meal prep on Sundays to save on food"
  else if p.1 = TransactionCategory.data ∧ p.2.ngn > 20000 then
    some "Check if your department has free WiFi access codes"
  else if p.1 = TransactionCategory.transport ∧ p.2.ngn > 30000 then
    some "Form a carpool group with coursemates living in your area"
  else none

/-- `generate_suggestions` of the source. -/
def generate_suggestions (category_spending : List (TransactionCategory × CatBreak)) :
    List String :=
  let suggestions := category_spending.filterMap suggestionFor
  (if suggestions = []
    then ["You\x27re managing your budget well! Keep tracking your expenses"]
    else suggestions).take 3

/-- The `period_summary` object of the insights response. -/
structure PeriodSummary where
  total_transactions : Nat
  total_sol : ℚ
  total_ngn : ℚ
  top_category : Option TransactionCategory
deriving DecidableEq

/-- The response of `POST /ai/insights`; the no-transactions branch returns the
fixed message with no period summary. -/
structure InsightsResponse where
  insights : String
  suggestions : List String
  period_summary : Option PeriodSummary
deriving DecidableEq

/-- The `get_ai_insights` handler.  The external chat-completion call is the
function `provider` from the prompt to either a text or an exception; the
`try/except` of the source turns any exception into the rule-based fallback. -/
def get_ai_insights (env : Env) (db : List TransactionRecord) (request : AIInsightRequest)
    (provider : String → Except String String) : InsightsResponse :=
  let period_txs := periodTxs env db request.period
  if period_txs = [] then
    { insights := "No transactions found for this period. Start making payments to get personalized insights!"
      suggestions := []
      period_summary := none }
  else
    let category_spending := categorySpending period_txs
    let prompt := buildPrompt request.period period_txs category_spending
    let insights :=
      match provider prompt with
      | Except.ok text => text
      | Except.error _ => generate_fallback_insights category_spending period_txs
    { insights := insights
      suggestions := generate_suggestions category_spending
      period_summary := some
        { total_transactions := period_txs.length
          total_sol := (period_txs.map (fun tx => tx.amount_sol)).sum
          total_ngn := (period_txs.map (fun tx => tx.amount_ngn)).sum
          top_category := (pyMaxBy (fun p => p.2.sol) category_spending).map (fun p => p.1) } }

/-- One period block of the `get_analytics_summary` response. -/
structure PeriodStats where
  transactions : Nat
  total_sol : ℚ
  total_ngn : ℚ
deriving DecidableEq

/-- The `get_analytics_summary` response for a non-empty ledger.  The
`average_transaction` sub-dict is flattened into its two fields. -/
structure AnalyticsSummary where
  daily : PeriodStats
  weekly : PeriodStats
  monthly : PeriodStats
  category_breakdown : List (TransactionCategory × CatBreak)
  top_merchants : List (Option String × ℚ)
  average_sol : ℚ
  average_ngn : ℚ
deriving DecidableEq

/-- `today_txs` of `get_analytics_summary`: timestamp at or after midnight. -/
def todayTxs (env : Env) (db : List TransactionRecord) : List TransactionRecord :=
  db.filter (fun tx => decide (env.todayStart ≤ tx.timestamp))

/-- `week_txs` of `get_analytics_summary`: the last 7 days. -/
def weekTxs (env : Env) (db : List TransactionRecord) : List TransactionRecord :=
  db.filter (fun tx => decide (env.now - 7 * 86400 ≤ tx.timestamp))

/-- `month_txs` of `get_analytics_summary`: the last 30 days. -/
def monthTxs (env : Env) (db : List TransactionRecord) : List TransactionRecord :=
  db.filter (fun tx => decide (env.now - 30 * 86400 ≤ tx.timestamp))

/-- The `merchant_spending` loop of `get_analytics_summary`.  Every stored row
has a `merchant_name` key, so `tx.get("merchant_name", "Unknown")` returns the
stored value — possibly `None` — and the `"Unknown"` default is dead; the dict
key is therefore an `Option String`. -/
def merchant_spending :
    List TransactionRecord → List (Option String × ℚ) → List (Option String × ℚ)
  | [], acc => acc
  | tx :: rest, acc =>
    merchant_spending rest (updateAssoc acc tx.merchant_name (fun v => v + tx.amount_ngn) 0)

/-- Count and totals of a transaction list (the three period blocks). -/
def statsOf (txs : List TransactionRecord) : PeriodStats :=
  { transactions := txs.length
    total_sol := (txs.map (fun tx => tx.amount_sol)).sum
    total_ngn := (txs.map (fun tx => tx.amount_ngn)).sum }

/-- The body of `get_analytics_summary` for a non-empty ledger.
`top_merchants` is `sorted(merchant_spending.items(), key=lambda x: x[1],
reverse=True)[:5]` — a stable descending sort on the spent amount, then the
first five entries. -/
def analyticsStats (env : Env) (db : List TransactionRecord) : AnalyticsSummary :=
  let month_txs := monthTxs env db
  { daily := statsOf (todayTxs env db)
    weekly := statsOf (weekTxs env db)
    monthly := statsOf month_txs
    category_breakdown := accumulateByCategory month_txs []
    top_merchants :=
      (List.insertionSort (fun a b => b.2 ≤ a.2) (merchant_spending month_txs [])).take 5
    average_sol :=
      if month_txs.length = 0 then 0
      else (month_txs.map (fun tx => tx.amount_sol)).sum / month_txs.length
    average_ngn :=
      if month_txs.length = 0 then 0
      else (month_txs.map (fun tx => tx.amount_ngn)).sum / month_txs.length }

/-- The `get_analytics_summary` handler: the empty ledger takes the early
`"No transactions yet"` branch (modelled as `none`). -/
def get_analytics_summary (env : Env) (db : List TransactionRecord) :
    Option AnalyticsSummary :=
  if db = [] then none else some (analyticsStats env db)

/-- Decimal digits of `n`, most significant first (the mathematical digit
expansion used to reason about `Nat.repr`). -/
def digitChars (n : Nat) : List Char :=
  if n < 10 then [Nat.digitChar n]
  else digitChars (n / 10) ++ [Nat.digitChar (n % 10)]
termination_by n
decreasing_by exact Nat.div_lt_self (by omega) (by omega)

/-- The number a decimal digit string denotes. -/
def valOfDigits (cs : List Char) : Nat := cs.foldl (fun acc c => acc * 10 + (c.toNat - 48)) 0

/-- The numeric index carried by a record id of the form `tx_<n>`. -/
def idNum (r : TransactionRecord) : Nat := valOfDigits (r.id.data.drop 3)

/-- The rows of `db` carry the consecutive ids `tx_k, tx_(k+1), ...`. -/
def idsNumberedFrom : List TransactionRecord → Nat → Prop
  | [], _ => True
  | r :: rest, k => r.id = idString k ∧ idsNumberedFrom rest (k + 1)

/-- Ledger states reachable by the program itself: the empty ledger at startup,
extended only by successful `process_payment` calls. -/
inductive Reachable : List TransactionRecord → Prop
  | nil : Reachable []
  | step (env : Env) (payment : PaymentRequest) (db : List TransactionRecord)
      (r : TransactionRecord) (db2 : List TransactionRecord) :
      Reachable db → process_payment env db payment = (PayResult.ok r, db2) →
      Reachable db2

/-- Strict lexicographic order on char lists by code point (the ASCII order a
reader means by "identifier ascending"). -/
def charListLtb : List Char → List Char → Bool
  | [], [] => false
  | [], _ :: _ => true
  | _ :: _, [] => false
  | a :: as, b :: bs =>
    if a.toNat < b.toNat then true
    else if b.toNat < a.toNat then false
    else charListLtb as bs

/-- "Counterparty identifier ascending" on the merchant keys of the analytics
top-merchants list, as the claim states it (a missing name sorts first). -/
def merchantIdAsc : Option String → Option String → Bool
  | none, some _ => true
  | some s, some t => charListLtb s.data t.data
  | _, _ => false

/-- Brute-force per-category totals over a transaction list, as the rollup
claim states them: count and sums over exactly the transactions bearing the
category. -/
def bruteCat (txs : List TransactionRecord) (c : TransactionCategory) : CatBreak :=
  { count := (txs.filter (fun tx => decide (tx.category = c))).length
    sol := ((txs.filter (fun tx => decide (tx.category = c))).map (fun tx => tx.amount_sol)).sum
    ngn := ((txs.filter (fun tx => decide (tx.category = c))).map (fun tx => tx.amount_ngn)).sum }

/-- Addition of category accumulator entries. -/
def cbAdd (u v : CatBreak) : CatBreak :=
  { count := u.count + v.count, sol := u.sol + v.sol, ngn := u.ngn + v.ngn }

/-- A request environment used for concrete evaluations. -/
def env0 : Env :=
  { payerPubkey := "PAYER", isValidPubkey := fun _ => true,
    now := 10, todayStart := 5, txSig := "sig1" }

/-- A plain valid payment request to an address outside the merchant table. -/
def p0 : PaymentRequest :=
  { recipient := "RCPT", amount := 1, category := RawOpt.omitted,
    description := RawOpt.omitted, metadata := RawOpt.omitted }

/-- The record `process_payment env0 [] p0` creates. -/
def r0 : TransactionRecord :=
  { id := idString 1, sender := "PAYER", recipient := "RCPT", merchant_name := none,
    amount_sol := 1, amount_ngn := sol_to_naira 1, category := TransactionCategory.other,
    description := "", timestamp := 10, tx_signature := "sig1", metadata := [] }

/-- The record `process_payment env0 [r0] p0` creates. -/
def r1 : TransactionRecord :=
  { id := idString 2, sender := "PAYER", recipient := "RCPT", merchant_name := none,
    amount_sol := 1, amount_ngn := sol_to_naira 1, category := TransactionCategory.other,
    description := "", timestamp := 10, tx_signature := "sig1", metadata := [] }

/-- A request with no category supplied, to a recipient that has a merchant
directory entry (the campus cafeteria, default category `food`). -/
def c5req : PaymentRequest :=
  { recipient := "11111111111111111111111111111111", amount := 1,
    category := RawOpt.omitted, description := RawOpt.omitted, metadata := RawOpt.omitted }

/-- Environment for the analytics evaluations. -/
def env8 : Env :=
  { payerPubkey := "PAYER", isValidPubkey := fun _ => true,
    now := 10000000, todayStart := 9999000, txSig := "sig" }

/-- In-window transaction to merchant `B`, total spend 750000 NGN. -/
def r8B : TransactionRecord :=
  { id := "tx_1", sender := "PAYER", recipient := "BRCPT", merchant_name := some "B",
    amount_sol := 5, amount_ngn := 750000, category := TransactionCategory.food,
    description := "", timestamp := 9999999, tx_signature := "s1", metadata := [] }

/-- In-window transaction to merchant `A`, also total spend 750000 NGN. -/
def r8A : TransactionRecord :=
  { id := "tx_2", sender := "PAYER", recipient := "ARCPT", merchant_name := some "A",
    amount_sol := 5, amount_ngn := 750000, category := TransactionCategory.food,
    description := "", timestamp := 9999998, tx_signature := "s2", metadata := [] }

/-- A ledger with two equal-total merchants, `B` first. -/
def db8 : List TransactionRecord := [r8B, r8A]

/-- Two concrete positive-amount rows used for pagination evaluations. -/
def rq1 : TransactionRecord :=
  { id := "tx_1", sender := "PAYER", recipient := "RCPT", merchant_name := none,
    amount_sol := 1, amount_ngn := 150000, category := TransactionCategory.food,
    description := "", timestamp := 10, tx_signature := "s1", metadata := [] }

/-- Second concrete positive-amount row. -/
def rq2 : TransactionRecord :=
  { id := "tx_2", sender := "PAYER", recipient := "RCPT", merchant_name := none,
    amount_sol := 2, amount_ngn := 300000, category := TransactionCategory.food,
    description := "", timestamp := 9, tx_signature := "s2", metadata := [] }

/-- A two-row ledger whose rows both match an unfiltered listing. -/
def db10 : List TransactionRecord := [rq1, rq2]

/-- Accumulation of the category-`c` transactions of a list on top of a start
value (the trajectory of one dict entry through the aggregation loop). -/
def catFold (v : CatBreak) : List TransactionRecord → TransactionCategory → CatBreak
  | [], _ => v
  | tx :: rest, c =>
    if tx.category = c then catFold (catBump v tx) rest c else catFold v rest c

theorem charVal_digitChar : ∀ d, d < 10 → (Nat.digitChar d).toNat - 48 = d := by decide

theorem toDigitsCore_eq (fuel n : Nat) (ds : List Char) (h : n < fuel) :
    Nat.toDigitsCore 10 fuel n ds = digitChars n ++ ds := by
  induction fuel generalizing n ds with
  | zero => omega
  | succ fuel ih =>
    rw [Nat.toDigitsCore]
    by_cases h10 : n / 10 = 0
    · have hn : n < 10 := by omega
      have hmod : n % 10 = n := Nat.mod_eq_of_lt hn
      rw [if_pos h10]
      conv_rhs => rw [digitChars]
      rw [if_pos hn, hmod]
      rfl
    · have hn : ¬ n < 10 := by omega
      rw [if_neg h10, ih (n / 10) _ (by omega)]
      conv_rhs => rw [digitChars]
      rw [if_neg hn]
      simp

theorem valOfDigits_digitChars (n : Nat) : valOfDigits (digitChars n) = n := by
  induction n using Nat.strong_induction_on with
  | _ n ih =>
    by_cases hn : n < 10
    · rw [digitChars, if_pos hn]
      simp [valOfDigits, charVal_digitChar n hn]
    · rw [digitChars, if_neg hn]
      unfold valOfDigits
      rw [List.foldl_append]
      have hdiv := ih (n / 10) (Nat.div_lt_self (by omega) (by omega))
      unfold valOfDigits at hdiv
      rw [hdiv]
      simp [charVal_digitChar (n % 10) (Nat.mod_lt n (by omega))]
      omega

theorem repr_data (n : Nat) : (Nat.repr n).data = digitChars n := by
  show (Nat.toDigits 10 n).asString.data = digitChars n
  rw [Nat.toDigits, toDigitsCore_eq (n + 1) n [] (by omega)]
  simp [List.asString]

theorem string_data_append (s t : String) : (s ++ t).data = s.data ++ t.data := by
  cases s; cases t; rfl

theorem idString_injective {m n : Nat} (h : idString m = idString n) : m = n := by
  have hdata := congrArg String.data h
  rw [idString, idString, string_data_append, string_data_append] at hdata
  have h2 := List.append_cancel_left hdata
  rw [repr_data, repr_data] at h2
  have hv := valOfDigits_digitChars m
  rw [h2, valOfDigits_digitChars n] at hv
  omega

theorem idNum_of_idString (n : Nat) : valOfDigits ((idString n).data.drop 3) = n := by
  have h : (idString n).data = 't' :: 'x' :: '_' :: (Nat.repr n).data := by
    rw [idString, string_data_append]
    rfl
  rw [h]
  show valOfDigits ((Nat.repr n).data) = n
  rw [repr_data]
  exact valOfDigits_digitChars n

theorem lookupA_updateAssoc {κ β : Type} [DecidableEq κ] (m : List (κ × β)) (k q : κ)
    (f : β → β) (init : β) :
    lookupA (updateAssoc m k f init) q =
      if k = q then some (f ((lookupA m k).getD init)) else lookupA m q := by
  induction m with
  | nil => by_cases h : k = q <;> simp [updateAssoc, lookupA, h]
  | cons p rest ih =>
    obtain ⟨a, v⟩ := p
    by_cases ha : a = k
    · subst ha
      by_cases hq : a = q <;> simp [updateAssoc, lookupA, hq]
    · by_cases hq : a = q
      · subst hq
        have hka : ¬ k = a := fun h => ha h.symm
        simp [updateAssoc, lookupA, ha, hka]
      · simp [updateAssoc, lookupA, ha, hq, ih]

theorem lookupA_accumulateByCategory (txs : List TransactionRecord)
    (acc : List (TransactionCategory × CatBreak)) (c : TransactionCategory) :
    lookupA (accumulateByCategory txs acc) c =
      match lookupA acc c with
      | some v => some (catFold v txs c)
      | none =>
        if (txs.filter (fun tx => decide (tx.category = c))) = [] then none
        else some (catFold czero txs c) := by
  induction txs generalizing acc with
  | nil =>
    cases hl : lookupA acc c <;> simp [accumulateByCategory, catFold, hl]
  | cons tx rest ih =>
    rw [accumulateByCategory, ih, lookupA_updateAssoc]
    by_cases hc : tx.category = c
    · cases hl : lookupA acc c with
      | none => simp [hc, hl, catFold, List.filter_cons]
      | some v => simp [hc, hl, catFold]
    · cases hl : lookupA acc c with
      | none => simp [hc, hl, catFold, List.filter_cons]
      | some v => simp [hc, hl, catFold]

theorem catFold_eq (txs : List TransactionRecord) :
    ∀ (v : CatBreak) (c : TransactionCategory), catFold v txs c = cbAdd v (bruteCat txs c) := by
  induction txs with
  | nil =>
    intro v c
    simp [catFold, bruteCat, cbAdd, czero]
  | cons tx rest ih =>
    intro v c
    by_cases hc : tx.category = c
    · rw [catFold, if_pos hc, ih]
      simp [cbAdd, catBump, bruteCat, List.filter_cons, hc, CatBreak.mk.injEq]
      refine ⟨by omega, by ring, by ring⟩
    · rw [catFold, if_neg hc, ih]
      simp [bruteCat, List.filter_cons, hc]

theorem czero_cbAdd (x : CatBreak) : cbAdd czero x = x := by
  simp [cbAdd, czero]

theorem orderedInsert_rank_pairwise {α β : Type} [LinearOrder β] (key : α → β)
    (rank : α → Nat) (a : α) (s : List α)
    (hs : s.Pairwise (fun x y => key y < key x ∨ (key y = key x ∧ rank x < rank y)))
    (har : ∀ x ∈ s, rank a < rank x) :
    (List.orderedInsert (fun x y => key y ≤ key x) a s).Pairwise
      (fun x y => key y < key x ∨ (key y = key x ∧ rank x < rank y)) := by
  induction s with
  | nil => simp
  | cons y ys ih =>
    obtain ⟨hy, hys⟩ := List.pairwise_cons.mp hs
    rw [List.orderedInsert]
    by_cases hle : key y ≤ key a
    · rw [if_pos hle]
      refine List.pairwise_cons.mpr ⟨?_, hs⟩
      intro z hz
      rcases List.mem_cons.mp hz with hzy | hzys
      · subst hzy
        rcases lt_or_eq_of_le hle with hlt | heq
        · exact Or.inl hlt
        · exact Or.inr ⟨heq, har z (List.mem_cons_self z ys)⟩
      · rcases hy z hzys with hlt | ⟨heq, _⟩
        · exact Or.inl (lt_of_lt_of_le hlt hle)
        · rcases lt_or_eq_of_le (heq ▸ hle) with hlt | heq2
          · exact Or.inl hlt
          · exact Or.inr ⟨heq2, har z (List.mem_cons_of_mem y hzys)⟩
    · rw [if_neg hle]
      refine List.pairwise_cons.mpr ⟨?_, ?_⟩
      · intro z hz
        rcases (List.mem_orderedInsert _).mp hz with hza | hzys
        · subst hza
          exact Or.inl (lt_of_not_le hle)
        · exact hy z hzys
      · exact ih hys (fun x hx => har x (List.mem_cons_of_mem y hx))

theorem insertionSort_rank_pairwise {α β : Type} [LinearOrder β] (key : α → β)
    (rank : α → Nat) (l : List α) (hl : l.Pairwise (fun a b => rank a < rank b)) :
    (List.insertionSort (fun a b => key b ≤ key a) l).Pairwise
      (fun x y => key y < key x ∨ (key y = key x ∧ rank x < rank y)) := by
  induction l with
  | nil => simp
  | cons a l ih =>
    obtain ⟨ha, hl2⟩ := List.pairwise_cons.mp hl
    rw [List.insertionSort]
    refine orderedInsert_rank_pairwise key rank a _ (ih hl2) ?_
    intro x hx
    exact ha x ((List.mem_insertionSort _).mp hx)

theorem pySliceTo_sublist {α : Type} (xs : List α) (limit : Int) : (pySliceTo xs limit).Sublist xs := by
  unfold pySliceTo
  split_ifs <;> exact List.take_sublist _ _

theorem filterByCategory_sublist (txs : List TransactionRecord)
    (c : Option TransactionCategory) : (filterByCategory txs c).Sublist txs := by
  cases c with
  | none => exact List.Sublist.refl txs
  | some c => exact List.filter_sublist txs

theorem filterByStart_sublist (txs : List TransactionRecord) (s : Option Int) :
    (filterByStart txs s).Sublist txs := by
  cases s with
  | none => exact List.Sublist.refl txs
  | some s => exact List.filter_sublist txs

theorem filterByEnd_sublist (txs : List TransactionRecord) (e : Option Int) :
    (filterByEnd txs e).Sublist txs := by
  cases e with
  | none => exact List.Sublist.refl txs
  | some e => exact List.filter_sublist txs

theorem filtered_txs_sublist (db : List TransactionRecord)
    (category : Option TransactionCategory) (start_date end_date : Option Int) :
    (filtered_txs db category start_date end_date).Sublist db := by
  unfold filtered_txs
  exact ((filterByEnd_sublist _ _).trans (filterByStart_sublist _ _)).trans
    (filterByCategory_sublist _ _)

theorem keys_updateAssoc {κ β : Type} [DecidableEq κ] (m : List (κ × β)) (k : κ)
    (f : β → β) (init : β) :
    (updateAssoc m k f init).map Prod.fst =
      if k ∈ m.map Prod.fst then m.map Prod.fst else m.map Prod.fst ++ [k] := by
  induction m with
  | nil => simp [updateAssoc]
  | cons p rest ih =>
    obtain ⟨a, v⟩ := p
    by_cases ha : a = k
    · subst ha
      simp [updateAssoc]
    · by_cases hk : k ∈ rest.map Prod.fst
      · simp [updateAssoc, ha, ih, hk, Ne.symm ha]
      · simp [updateAssoc, ha, ih, hk, Ne.symm ha]

theorem nodup_keys_updateAssoc {κ β : Type} [DecidableEq κ] (m : List (κ × β)) (k : κ)
    (f : β → β) (init : β) (h : (m.map Prod.fst).Nodup) :
    ((updateAssoc m k f init).map Prod.fst).Nodup := by
  rw [keys_updateAssoc]
  by_cases hk : k ∈ m.map Prod.fst
  · rw [if_pos hk]; exact h
  · rw [if_neg hk]
    rw [List.nodup_append]
    refine ⟨h, List.nodup_singleton k, ?_⟩
    intro a ha hak
    rw [List.mem_singleton] at hak
    exact hk (hak ▸ ha)

theorem merchant_spending_keys_nodup (txs : List TransactionRecord) :
    ∀ acc : List (Option String × ℚ), (acc.map Prod.fst).Nodup →
      ((merchant_spending txs acc).map Prod.fst).Nodup := by
  induction txs with
  | nil => intro acc h; exact h
  | cons tx rest ih =>
    intro acc h
    exact ih _ (nodup_keys_updateAssoc acc tx.merchant_name _ 0 h)

theorem posIn_pairwise {α : Type} [DecidableEq α] (l : List α) (h : l.Nodup) :
    l.Pairwise (fun a b => posIn l a < posIn l b) := by
  induction l with
  | nil => exact List.Pairwise.nil
  | cons x xs ih =>
    obtain ⟨hx, hxs⟩ := List.nodup_cons.mp h
    refine List.pairwise_cons.mpr ⟨?_, ?_⟩
    · intro b hb
      have hbx : ¬ x = b := fun he => hx (he ▸ hb)
      simp [posIn, hbx]
    · refine List.Pairwise.imp_of_mem ?_ (ih hxs)
      intro a b ha hb hab
      have hax : ¬ x = a := fun he => hx (he ▸ ha)
      have hbx : ¬ x = b := fun he => hx (he ▸ hb)
      simpa [posIn, hax, hbx] using hab

theorem process_payment_ok_inv (env : Env) (db : List TransactionRecord)
    (payment : PaymentRequest) (r : TransactionRecord) (db2 : List TransactionRecord)
    (h : process_payment env db payment = (PayResult.ok r, db2)) :
    db2 = db ++ [r] ∧
    r.id = idString (db.length + 1) ∧
    r.amount_sol = payment.amount ∧
    r.amount_ngn = sol_to_naira payment.amount ∧
    r.category = pyOrCat (pydCategory payment.category)
      (((lookupMerchant payment.recipient).map (fun m => m.category)).getD
        TransactionCategory.other) ∧
    0 < payment.amount ∧ env.isValidPubkey payment.recipient = true := by
  unfold process_payment at h
  split_ifs at h with h1 h2
  · simp only [Prod.mk.injEq, PayResult.ok.injEq] at h
    obtain ⟨h3, h4⟩ := h
    subst h3
    subst h4
    exact ⟨rfl, rfl, rfl, rfl, rfl, h1, h2⟩
  · exact absurd h (by simp)
  · exact absurd h (by simp)

theorem idsNumberedFrom_append (db : List TransactionRecord) (r : TransactionRecord) :
    ∀ k, idsNumberedFrom db k → r.id = idString (k + db.length) →
      idsNumberedFrom (db ++ [r]) k := by
  induction db with
  | nil =>
    intro k _ hr
    exact ⟨by simpa using hr, trivial⟩
  | cons x rest ih =>
    intro k hx hr
    obtain ⟨hx1, hx2⟩ := hx
    refine ⟨hx1, ih (k + 1) hx2 ?_⟩
    rw [hr]
    congr 1
    simp [List.length_cons]
    omega

theorem reachable_idsNumbered {db : List TransactionRecord} (h : Reachable db) :
    idsNumberedFrom db 1 := by
  induction h with
  | nil => trivial
  | step env payment db r db2 hdb heq ih =>
    obtain ⟨hdb2, hid, _⟩ := process_payment_ok_inv env db payment r db2 heq
    subst hdb2
    refine idsNumberedFrom_append db r 1 ih ?_
    rw [hid]
    congr 1
    omega

theorem idsNumberedFrom_mem {db : List TransactionRecord} :
    ∀ {k : Nat}, idsNumberedFrom db k →
      ∀ r ∈ db, ∃ j, k ≤ j ∧ j < k + db.length ∧ r.id = idString j := by
  induction db with
  | nil =>
    intro k _ r hr
    cases hr
  | cons x rest ih =>
    intro k h r hr
    obtain ⟨h1, h2⟩ := h
    rcases List.mem_cons.mp hr with he | hm
    · subst he
      exact ⟨k, le_refl k, by simp, h1⟩
    · obtain ⟨j, hj1, hj2, hj3⟩ := ih h2 r hm
      refine ⟨j, by omega, ?_, hj3⟩
      simp [List.length_cons] at hj2 ⊢
      omega

theorem idsNumberedFrom_pairwise {db : List TransactionRecord} :
    ∀ {k : Nat}, idsNumberedFrom db k →
      db.Pairwise (fun a b => idNum a < idNum b) := by
  induction db with
  | nil =>
    intro k _
    exact List.Pairwise.nil
  | cons x rest ih =>
    intro k h
    obtain ⟨h1, h2⟩ := h
    refine List.pairwise_cons.mpr ⟨?_, ih h2⟩
    intro b hb
    obtain ⟨j, hj1, _, hj3⟩ := idsNumberedFrom_mem h2 b hb
    have hx : idNum x = k := by rw [idNum, h1]; exact idNum_of_idString k
    have hbn : idNum b = j := by rw [idNum, hj3]; exact idNum_of_idString j
    omega

theorem reachable_pairwise_idNum {db : List TransactionRecord} (h : Reachable db) :
    db.Pairwise (fun a b => idNum a < idNum b) :=
  idsNumberedFrom_pairwise (reachable_idsNumbered h)

/-- C2: every payment request whose amount is not strictly positive, or whose
recipient is not a well-formed settlement-backend address, is rejected
synchronously with a validation error (Pydantic 422 or HTTP 400), and the
ledger is unchanged by the rejected request. -/
theorem c2_validation_atomicity (env : Env) (db : List TransactionRecord)
    (payment : PaymentRequest)
    (h : ¬ 0 < payment.amount ∨ env.isValidPubkey payment.recipient = false) :
    ((process_payment env db payment).1 = PayResult.validationError ∨
      (process_payment env db payment).1 = PayResult.invalidRecipient) ∧
    (process_payment env db payment).2 = db := by
  unfold process_payment
  rcases h with h | h
  · rw [if_neg h]
    exact ⟨Or.inl rfl, rfl⟩
  · by_cases h1 : 0 < payment.amount
    · rw [if_pos h1, if_neg (by simp [h])]
      exact ⟨Or.inr rfl, rfl⟩
    · rw [if_neg h1]
      exact ⟨Or.inl rfl, rfl⟩

/-- Witness for C2: a zero-amount request against a one-row ledger is rejected
and leaves the ledger as it was. -/
theorem c2_validation_atomicity_witness :
    (¬ 0 < ({ p0 with amount := 0 } : PaymentRequest).amount ∨
      env0.isValidPubkey ({ p0 with amount := 0 } : PaymentRequest).recipient = false) ∧
    (((process_payment env0 [r0] { p0 with amount := 0 }).1 = PayResult.validationError ∨
       (process_payment env0 [r0] { p0 with amount := 0 }).1 = PayResult.invalidRecipient) ∧
      (process_payment env0 [r0] { p0 with amount := 0 }).2 = [r0]) :=
  ⟨Or.inl (by decide),
    c2_validation_atomicity env0 [r0] { p0 with amount := 0 } (Or.inl (by decide))⟩

/-- C9: every record created by a successful payment stores
`amount_ngn = sol_to_naira(amount_sol)`, i.e. `amount_sol * 100 * 1500 =
amount_sol * 150000`; the same hardcoded rate applies to every record. -/
theorem c9_fixed_rate_conversion (env : Env) (db : List TransactionRecord)
    (payment : PaymentRequest) (r : TransactionRecord) (db2 : List TransactionRecord)
    (h : process_payment env db payment = (PayResult.ok r, db2)) :
    r.amount_ngn = sol_to_naira r.amount_sol ∧ r.amount_ngn = r.amount_sol * 150000 := by
  obtain ⟨-, -, hsol, hngn, -⟩ := process_payment_ok_inv env db payment r db2 h
  constructor
  · rw [hngn, hsol]
  · rw [hngn, hsol, sol_to_naira]
    ring

/-- Witness for C9 at the concrete payment `p0`. -/
theorem c9_fixed_rate_conversion_witness :
    process_payment env0 [] p0 = (PayResult.ok r0, [r0]) ∧
    (r0.amount_ngn = sol_to_naira r0.amount_sol ∧ r0.amount_ngn = r0.amount_sol * 150000) :=
  ⟨rfl, c9_fixed_rate_conversion env0 [] p0 r0 [r0] rfl⟩

/-- C5 counterexample: a request that supplies no category (the field is
omitted) to a recipient with a merchant directory entry whose default category
is `food` is recorded with category `other`, because the Pydantic field default
`OTHER` is truthy and shadows the merchant lookup. -/
theorem c5_category_default_counterexample :
    c5req.category = RawOpt.omitted ∧
    (lookupMerchant c5req.recipient).map (fun m => m.category) =
      some TransactionCategory.food ∧
    ((process_payment env0 [] c5req).2.map (fun r => r.category)) =
      [TransactionCategory.other] :=
  ⟨rfl, rfl, rfl⟩

/-- C5 amended: at record creation the category is resolved as follows — a
supplied category is used as given; an omitted category field resolves to the
Pydantic default `other` (even when the recipient has a merchant entry); only
an explicit `null` category falls back to the merchant directory default, or
`other` when there is no entry. -/
theorem c5_category_default_amended (env : Env) (db : List TransactionRecord)
    (payment : PaymentRequest) (h1 : 0 < payment.amount)
    (h2 : env.isValidPubkey payment.recipient = true) :
    ∃ r db2, process_payment env db payment = (PayResult.ok r, db2) ∧
      r.category =
        (match payment.category with
         | RawOpt.omitted => TransactionCategory.other
         | RawOpt.null =>
            ((lookupMerchant payment.recipient).map (fun m => m.category)).getD
              TransactionCategory.other
         | RawOpt.given c => c) := by
  unfold process_payment
  rw [if_pos h1, if_pos (by simp [h2])]
  refine ⟨_, _, rfl, ?_⟩
  cases payment.category <;> rfl

/-- Witness for the amended C5 at the concrete request `c5req`. -/
theorem c5_category_default_amended_witness :
    0 < c5req.amount ∧ env0.isValidPubkey c5req.recipient = true ∧
    (∃ r db2, process_payment env0 [] c5req = (PayResult.ok r, db2) ∧
      r.category =
        (match c5req.category with
         | RawOpt.omitted => TransactionCategory.other
         | RawOpt.null =>
            ((lookupMerchant c5req.recipient).map (fun m => m.category)).getD
              TransactionCategory.other
         | RawOpt.given c => c)) :=
  ⟨by decide, rfl, c5_category_default_amended env0 [] c5req (by decide) rfl⟩

/-- C7: a transaction belongs to the filtered set of the listing if and only
if it is in the ledger and satisfies every supplied filter — category equality,
timestamp at or after the start date, timestamp at or before the end date; an
omitted filter constrains nothing. -/
theorem c7_filter_conjunction (db : List TransactionRecord)
    (category : Option TransactionCategory) (start_date end_date : Option Int)
    (tx : TransactionRecord) :
    tx ∈ filtered_txs db category start_date end_date ↔
      tx ∈ db ∧
      (∀ c, category = some c → tx.category = c) ∧
      (∀ s, start_date = some s → s ≤ tx.timestamp) ∧
      (∀ e, end_date = some e → tx.timestamp ≤ e) := by
  unfold filtered_txs
  cases category <;> cases start_date <;> cases end_date <;>
    (simp [filterByCategory, filterByStart, filterByEnd, List.mem_filter, and_assoc];
      try tauto)

/-- C3: on a ledger reachable by the program itself, a successfully processed
payment appends exactly one new record (no existing record is mutated or
deleted), and the id assigned to it differs from the id of every record
already in the ledger. -/
theorem c3_append_only_unique_ids (env : Env) (db : List TransactionRecord)
    (payment : PaymentRequest) (r : TransactionRecord) (db2 : List TransactionRecord)
    (hreach : Reachable db) (h : process_payment env db payment = (PayResult.ok r, db2)) :
    db2 = db ++ [r] ∧ ∀ r2 ∈ db, r2.id ≠ r.id := by
  obtain ⟨hdb2, hid, -⟩ := process_payment_ok_inv env db payment r db2 h
  refine ⟨hdb2, ?_⟩
  intro r2 hr2 he
  obtain ⟨j, hj1, hj2, hj3⟩ := idsNumberedFrom_mem (reachable_idsNumbered hreach) r2 hr2
  rw [hj3, hid] at he
  have hje := idString_injective he
  omega

/-- Witness for C3: the second payment on a reachable one-row ledger appends
`tx_2` and touches nothing else. -/
theorem c3_append_only_unique_ids_witness :
    Reachable [r0] ∧ process_payment env0 [r0] p0 = (PayResult.ok r1, [r0, r1]) ∧
    ([r0, r1] = [r0] ++ [r1] ∧ ∀ r2 ∈ [r0], r2.id ≠ r1.id) :=
  ⟨Reachable.step env0 p0 [] r0 [r0] Reachable.nil rfl, rfl,
    c3_append_only_unique_ids env0 [r0] p0 r1 [r0, r1]
      (Reachable.step env0 p0 [] r0 [r0] Reachable.nil rfl) rfl⟩

/-- C4: on a reachable ledger the transaction listing is ordered by timestamp
descending, and any two rows with equal timestamps appear in ascending order
of the numeric index of their ids (`tx_<n>`), deterministically — the listing
is a pure function of the ledger state. -/
theorem c4_deterministic_ordering (db : List TransactionRecord) (hreach : Reachable db)
    (category : Option TransactionCategory) (start_date end_date : Option Int)
    (limit : Int) :
    (get_transactions db category start_date end_date limit).transactions.Pairwise
      (fun a b => b.timestamp < a.timestamp ∨
        (b.timestamp = a.timestamp ∧ idNum a < idNum b)) := by
  have hdb := reachable_pairwise_idNum hreach
  have hf : (filtered_txs db category start_date end_date).Pairwise
      (fun a b => idNum a < idNum b) :=
    List.Pairwise.sublist (filtered_txs_sublist db category start_date end_date) hdb
  have hsorted := insertionSort_rank_pairwise
    (fun r : TransactionRecord => r.timestamp) idNum
    (filtered_txs db category start_date end_date) hf
  have hsub : (get_transactions db category start_date end_date limit).transactions.Sublist
      (List.insertionSort (fun a b : TransactionRecord => b.timestamp ≤ a.timestamp)
        (filtered_txs db category start_date end_date)) := by
    show (pySliceTo (sortByTimestampDesc _) limit).Sublist _
    exact pySliceTo_sublist _ _
  exact List.Pairwise.sublist hsub hsorted

/-- Witness for C4 on a concrete reachable one-row ledger. -/
theorem c4_deterministic_ordering_witness :
    Reachable [r0] ∧
    (get_transactions [r0] none none none 50).transactions.Pairwise
      (fun a b => b.timestamp < a.timestamp ∨
        (b.timestamp = a.timestamp ∧ idNum a < idNum b)) :=
  ⟨Reachable.step env0 p0 [] r0 [r0] Reachable.nil rfl,
    c4_deterministic_ordering [r0] (Reachable.step env0 p0 [] r0 [r0] Reachable.nil rfl)
      none none none 50⟩

/-- C6: when at least one transaction falls in the requested period and the
insight provider raises on every prompt, the insights endpoint still returns a
normal response whose insight text is exactly the rule-based fallback summary
computed from the same period data; the provider exception is never
propagated. -/
theorem c6_insight_provider_fallback (env : Env) (db : List TransactionRecord)
    (request : AIInsightRequest) (provider : String → Except String String)
    (hne : periodTxs env db request.period ≠ [])
    (hfail : ∀ prompt, ∃ e, provider prompt = Except.error e) :
    (get_ai_insights env db request provider).insights =
      generate_fallback_insights (categorySpending (periodTxs env db request.period))
        (periodTxs env db request.period) ∧
    (get_ai_insights env db request provider).period_summary ≠ none := by
  obtain ⟨e, he⟩ := hfail (buildPrompt request.period (periodTxs env db request.period)
    (categorySpending (periodTxs env db request.period)))
  simp only [get_ai_insights]
  rw [if_neg hne, he]
  exact ⟨rfl, by simp⟩

/-- Witness for C6: one in-period transaction and an always-failing provider. -/
theorem c6_insight_provider_fallback_witness :
    periodTxs env0 [r0] "today" ≠ [] ∧
    ((get_ai_insights env0 [r0] { period := "today", focus := none }
        (fun _ => Except.error "ai down")).insights =
      generate_fallback_insights (categorySpending (periodTxs env0 [r0] "today"))
        (periodTxs env0 [r0] "today") ∧
     (get_ai_insights env0 [r0] { period := "today", focus := none }
        (fun _ => Except.error "ai down")).period_summary ≠ none) :=
  ⟨by decide,
    c6_insight_provider_fallback env0 [r0] { period := "today", focus := none }
      (fun _ => Except.error "ai down") (by decide) (fun _ => ⟨"ai down", rfl⟩)⟩

/-- C1: for every non-empty ledger state, the per-category breakdown of the
analytics summary maps a category to exactly the count, total SOL and total
NGN of the in-window (last 30 days) transactions bearing that category — the
brute-force sum grouped by category — and has no entry for a category with no
in-window transaction, so nothing is double-counted or omitted. -/
theorem c1_rollup_correctness (env : Env) (db : List TransactionRecord) (hne : db ≠ [])
    (c : TransactionCategory) :
    get_analytics_summary env db = some (analyticsStats env db) ∧
    lookupA (analyticsStats env db).category_breakdown c =
      (if (monthTxs env db).filter (fun tx => decide (tx.category = c)) = [] then none
       else some (bruteCat (monthTxs env db) c)) := by
  refine ⟨by simp [get_analytics_summary, hne], ?_⟩
  have hb : (analyticsStats env db).category_breakdown =
      accumulateByCategory (monthTxs env db) [] := rfl
  rw [hb, lookupA_accumulateByCategory]
  show (if (monthTxs env db).filter (fun tx => decide (tx.category = c)) = [] then none
        else some (catFold czero (monthTxs env db) c)) = _
  rw [catFold_eq, czero_cbAdd]

/-- Witness for C1 on a concrete one-row ledger and the category `other`. -/
theorem c1_rollup_correctness_witness :
    ([r0] : List TransactionRecord) ≠ [] ∧
    (get_analytics_summary env0 [r0] = some (analyticsStats env0 [r0]) ∧
     lookupA (analyticsStats env0 [r0]).category_breakdown TransactionCategory.other =
       (if (monthTxs env0 [r0]).filter
            (fun tx => decide (tx.category = TransactionCategory.other)) = [] then none
        else some (bruteCat (monthTxs env0 [r0]) TransactionCategory.other))) :=
  ⟨by decide, c1_rollup_correctness env0 [r0] (by decide) TransactionCategory.other⟩

/-- C8 counterexample: two merchants `B` then `A` with equal monthly totals.
The code's `sorted(..., key=lambda x: x[1], reverse=True)` is stable, so the
tie keeps first-occurrence order and `B` is listed before `A`, violating
"ties broken by counterparty identifier ascending". -/
theorem c8_top_merchants_counterexample :
    get_analytics_summary env8 db8 = some (analyticsStats env8 db8) ∧
    (analyticsStats env8 db8).top_merchants = [(some "B", 750000), (some "A", 750000)] ∧
    ¬ (analyticsStats env8 db8).top_merchants.Pairwise
        (fun a b => b.2 < a.2 ∨ (b.2 = a.2 ∧ merchantIdAsc a.1 b.1 = true)) := by
  have h1 : (analyticsStats env8 db8).top_merchants =
      (List.insertionSort (fun a b : Option String × ℚ => b.2 ≤ a.2)
        [(some "B", (0:ℚ) + 750000), (some "A", (0:ℚ) + 750000)]).take 5 := rfl
  rw [zero_add] at h1
  have h2 : (List.insertionSort (fun a b : Option String × ℚ => b.2 ≤ a.2)
      [(some "B", (750000:ℚ)), (some "A", 750000)]).take 5 =
      [(some "B", (750000:ℚ)), (some "A", 750000)] := by decide
  have h3 := h1.trans h2
  refine ⟨rfl, h3, ?_⟩
  rw [h3]
  decide

/-- C8 amended: the top-merchants sequence is ordered by total spent
descending; merchants with equal totals keep the order of their first
appearance in the month's transactions (the aggregation dict's insertion
order), not identifier order; the sequence is truncated to 5 entries. -/
theorem c8_top_merchants_amended (env : Env) (db : List TransactionRecord) (hne : db ≠ []) :
    get_analytics_summary env db = some (analyticsStats env db) ∧
    (analyticsStats env db).top_merchants.length ≤ 5 ∧
    (analyticsStats env db).top_merchants.Pairwise
      (fun a b => b.2 < a.2 ∨ (b.2 = a.2 ∧
        posIn (merchant_spending (monthTxs env db) []) a <
          posIn (merchant_spending (monthTxs env db) []) b)) := by
  refine ⟨by simp [get_analytics_summary, hne], ?_, ?_⟩
  · show ((List.insertionSort (fun a b : Option String × ℚ => b.2 ≤ a.2)
        (merchant_spending (monthTxs env db) [])).take 5).length ≤ 5
    rw [List.length_take]
    exact min_le_left _ _
  · have hnodup : (merchant_spending (monthTxs env db) []).Nodup :=
      List.Nodup.of_map Prod.fst
        (merchant_spending_keys_nodup (monthTxs env db) [] (by simp))
    have hpair := posIn_pairwise _ hnodup
    have hs := insertionSort_rank_pairwise (fun p : Option String × ℚ => p.2)
      (posIn (merchant_spending (monthTxs env db) []))
      (merchant_spending (monthTxs env db) []) hpair
    have hsub : (analyticsStats env db).top_merchants.Sublist
        (List.insertionSort (fun a b : Option String × ℚ => b.2 ≤ a.2)
          (merchant_spending (monthTxs env db) [])) := by
      show ((List.insertionSort (fun a b : Option String × ℚ => b.2 ≤ a.2)
        (merchant_spending (monthTxs env db) [])).take 5).Sublist _
      exact List.take_sublist _ _
    exact List.Pairwise.sublist hsub hs

/-- Witness for the amended C8 on the concrete two-merchant ledger. -/
theorem c8_top_merchants_amended_witness :
    db8 ≠ [] ∧
    (get_analytics_summary env8 db8 = some (analyticsStats env8 db8) ∧
     (analyticsStats env8 db8).top_merchants.length ≤ 5 ∧
     (analyticsStats env8 db8).top_merchants.Pairwise
       (fun a b => b.2 < a.2 ∨ (b.2 = a.2 ∧
         posIn (merchant_spending (monthTxs env8 db8) []) a <
           posIn (merchant_spending (monthTxs env8 db8) []) b))) :=
  ⟨by decide, c8_top_merchants_amended env8 db8 (by decide)⟩

/-- C10: the transaction listing returns at most `limit` rows (the endpoint
default is 50 and FastAPI rejects limits above 100), while `total`,
`total_sol` and `total_ngn` are computed over the entire filtered set before
truncation; when more than `limit` transactions match (with every ledger
amount positive, as validation guarantees), each reported total strictly
exceeds the corresponding sum over the returned page. -/
theorem c10_page_truncation_totals (db : List TransactionRecord)
    (category : Option TransactionCategory) (start_date end_date : Option Int)
    (limit : Int) (hlim : 0 ≤ limit)
    (hpos : ∀ tx ∈ db, 0 < tx.amount_sol ∧ 0 < tx.amount_ngn) :
    (get_transactions db category start_date end_date limit).transactions.length ≤
      limit.toNat ∧
    (get_transactions db category start_date end_date limit).total =
      (filtered_txs db category start_date end_date).length ∧
    (get_transactions db category start_date end_date limit).total_sol =
      ((filtered_txs db category start_date end_date).map (fun tx => tx.amount_sol)).sum ∧
    (get_transactions db category start_date end_date limit).total_ngn =
      ((filtered_txs db category start_date end_date).map (fun tx => tx.amount_ngn)).sum ∧
    (limit.toNat < (filtered_txs db category start_date end_date).length →
      ((get_transactions db category start_date end_date limit).transactions.map
          (fun tx => tx.amount_sol)).sum <
        (get_transactions db category start_date end_date limit).total_sol ∧
      ((get_transactions db category start_date end_date limit).transactions.map
          (fun tx => tx.amount_ngn)).sum <
        (get_transactions db category start_date end_date limit).total_ngn ∧
      (get_transactions db category start_date end_date limit).transactions.length <
        (get_transactions db category start_date end_date limit).total) := by
  have hperm : (sortByTimestampDesc (filtered_txs db category start_date end_date)).Perm
      (filtered_txs db category start_date end_date) :=
    List.perm_insertionSort _ _
  have hlen : (sortByTimestampDesc (filtered_txs db category start_date end_date)).length =
      (filtered_txs db category start_date end_date).length := hperm.length_eq
  have htr : (get_transactions db category start_date end_date limit).transactions =
      (sortByTimestampDesc (filtered_txs db category start_date end_date)).take
        limit.toNat := by
    show pySliceTo _ limit = _
    rw [pySliceTo, if_pos hlim]
  have htot : (get_transactions db category start_date end_date limit).total =
      (filtered_txs db category start_date end_date).length := hlen
  have hsol : (get_transactions db category start_date end_date limit).total_sol =
      ((filtered_txs db category start_date end_date).map (fun tx => tx.amount_sol)).sum := by
    show ((sortByTimestampDesc (filtered_txs db category start_date end_date)).map
        (fun tx => tx.amount_sol)).sum = _
    exact (hperm.map (fun tx => tx.amount_sol)).sum_eq
  have hngn : (get_transactions db category start_date end_date limit).total_ngn =
      ((filtered_txs db category start_date end_date).map (fun tx => tx.amount_ngn)).sum := by
    show ((sortByTimestampDesc (filtered_txs db category start_date end_date)).map
        (fun tx => tx.amount_ngn)).sum = _
    exact (hperm.map (fun tx => tx.amount_ngn)).sum_eq
  refine ⟨?_, htot, hsol, hngn, ?_⟩
  · rw [htr, List.length_take]
    exact min_le_left _ _
  · intro hlt
    have hdropne : (sortByTimestampDesc (filtered_txs db category start_date end_date)).drop
        limit.toNat ≠ [] := by
      refine List.ne_nil_of_length_pos ?_
      rw [List.length_drop]
      omega
    have hmemdb : ∀ x ∈ (sortByTimestampDesc
        (filtered_txs db category start_date end_date)).drop limit.toNat, x ∈ db := by
      intro x hx
      have hxS := (List.drop_sublist _ _).subset hx
      have hxF := hperm.subset hxS
      exact (filtered_txs_sublist db category start_date end_date).subset hxF
    have hsplit : ∀ g : TransactionRecord → ℚ,
        ((sortByTimestampDesc (filtered_txs db category start_date end_date)).map g).sum =
          (((sortByTimestampDesc (filtered_txs db category start_date end_date)).take
              limit.toNat).map g).sum +
          (((sortByTimestampDesc (filtered_txs db category start_date end_date)).drop
              limit.toNat).map g).sum := by
      intro g
      conv_lhs =>
        rw [← List.take_append_drop limit.toNat
          (sortByTimestampDesc (filtered_txs db category start_date end_date))]
      rw [List.map_append, List.sum_append]
    have hpossum : ∀ g : TransactionRecord → ℚ, (∀ tx ∈ db, 0 < g tx) →
        0 < (((sortByTimestampDesc (filtered_txs db category start_date end_date)).drop
          limit.toNat).map g).sum := by
      intro g hg
      refine List.sum_pos _ ?_ ?_
      · intro x hx
        obtain ⟨y, hy, hyx⟩ := List.mem_map.mp hx
        exact hyx ▸ hg y (hmemdb y hy)
      · simpa using hdropne
    have hssol : (get_transactions db category start_date end_date limit).total_sol =
        ((sortByTimestampDesc (filtered_txs db category start_date end_date)).map
          (fun tx => tx.amount_sol)).sum := rfl
    have hsngn : (get_transactions db category start_date end_date limit).total_ngn =
        ((sortByTimestampDesc (filtered_txs db category start_date end_date)).map
          (fun tx => tx.amount_ngn)).sum := rfl
    refine ⟨?_, ?_, ?_⟩
    · rw [htr, hssol, hsplit (fun tx => tx.amount_sol)]
      have := hpossum (fun tx => tx.amount_sol) (fun tx h => (hpos tx h).1)
      linarith
    · rw [htr, hsngn, hsplit (fun tx => tx.amount_ngn)]
      have := hpossum (fun tx => tx.amount_ngn) (fun tx h => (hpos tx h).2)
      linarith
    · rw [htr, htot, List.length_take]
      omega

/-- Witness for C10: two matching rows, limit 1. -/
theorem c10_page_truncation_totals_witness :
    (0 : Int) ≤ 1 ∧ (∀ tx ∈ db10, 0 < tx.amount_sol ∧ 0 < tx.amount_ngn) ∧
    ((get_transactions db10 none none none 1).transactions.length ≤ (1 : Int).toNat ∧
     (get_transactions db10 none none none 1).total = (filtered_txs db10 none none none).length ∧
     (get_transactions db10 none none none 1).total_sol =
       ((filtered_txs db10 none none none).map (fun tx => tx.amount_sol)).sum ∧
     (get_transactions db10 none none none 1).total_ngn =
       ((filtered_txs db10 none none none).map (fun tx => tx.amount_ngn)).sum ∧
     ((1 : Int).toNat < (filtered_txs db10 none none none).length →
       ((get_transactions db10 none none none 1).transactions.map
           (fun tx => tx.amount_sol)).sum <
         (get_transactions db10 none none none 1).total_sol ∧
       ((get_transactions db10 none none none 1).transactions.map
           (fun tx => tx.amount_ngn)).sum <
         (get_transactions db10 none none none 1).total_ngn ∧
       (get_transactions db10 none none none 1).transactions.length <
         (get_transactions db10 none none none 1).total)) :=
  ⟨by decide, by decide,
    c10_page_truncation_totals db10 none none none 1 (by decide) (by decide)⟩
